import Mathlib

/-!
Shallow embedding of `src/backend/database.py` (Mergington High activities
store): the in-memory `MockCollection` fallback with its query, update and
aggregation operators, and the seed loader `init_database`, together with
theorems about the specified behaviour.

Python values are modelled by `Value` (None, str, int, list, dict with string
keys).  A document is an insertion-ordered association list of fields (Python
dicts preserve insertion order); a collection's backing map `self.data` is an
insertion-ordered association list from key values to documents.  Operations
that can raise a Python exception return `Option`, with `none` standing for a
raised exception.
-/

/-- A Python runtime value as used by the database module: `None`, `str`,
`int`, `list`, or `dict` with string keys (insertion-ordered). -/
inductive Value where
  | null : Value
  | str : String → Value
  | int : Int → Value
  | list : List Value → Value
  | obj : List (String × Value) → Value

/-- A document (also a query or an update argument): an insertion-ordered
Python dict with string keys. -/
abbrev Doc := List (String × Value)

/-- The backing map `self.data` of a `MockCollection`: identifier value to
document, insertion-ordered as a Python dict is. -/
abbrev Store := List (Value × Doc)

mutual

/-- Structural equality of `Value`s, matching Python `==` on the value
shapes the module stores (None, str, int, and nested lists/dicts). -/
def beqValue : Value → Value → Bool
  | .null, .null => true
  | .str a, .str b => a == b
  | .int a, .int b => a == b
  | .list xs, .list ys => beqVList xs ys
  | .obj fs, .obj gs => beqVObj fs gs
  | _, _ => false

/-- Elementwise equality of `Value` lists. -/
def beqVList : List Value → List Value → Bool
  | [], [] => true
  | x :: xs, y :: ys => beqValue x y && beqVList xs ys
  | _, _ => false

/-- Fieldwise equality of dict field lists (key order significant, as the
model keeps dicts as ordered field lists). -/
def beqVObj : List (String × Value) → List (String × Value) → Bool
  | [], [] => true
  | (k, v) :: fs, (k', v') :: gs => k == k' && beqValue v v' && beqVObj fs gs
  | _, _ => false

end

mutual

theorem beqValue_sound : (a b : Value) → beqValue a b = true → a = b
  | .null, .null, _ => rfl
  | .str x, .str y, h => by
      simp only [beqValue, beq_iff_eq] at h; rw [h]
  | .int x, .int y, h => by
      simp only [beqValue, beq_iff_eq] at h; rw [h]
  | .list xs, .list ys, h => by
      rw [beqVList_sound xs ys (by simpa [beqValue] using h)]
  | .obj fs, .obj gs, h => by
      rw [beqVObj_sound fs gs (by simpa [beqValue] using h)]

theorem beqVList_sound : (xs ys : List Value) → beqVList xs ys = true → xs = ys
  | [], [], _ => rfl
  | x :: xs, y :: ys, h => by
      simp only [beqVList, Bool.and_eq_true] at h
      rw [beqValue_sound x y h.1, beqVList_sound xs ys h.2]

theorem beqVObj_sound : (fs gs : List (String × Value)) → beqVObj fs gs = true → fs = gs
  | [], [], _ => rfl
  | (k, v) :: fs, (k', v') :: gs, h => by
      simp only [beqVObj, Bool.and_eq_true, beq_iff_eq] at h
      rw [h.1.1, beqValue_sound v v' h.1.2, beqVObj_sound fs gs h.2]

end

mutual

theorem beqValue_rfl : (a : Value) → beqValue a a = true
  | .null => rfl
  | .str x => by simp [beqValue]
  | .int x => by simp [beqValue]
  | .list xs => by simpa [beqValue] using beqVList_rfl xs
  | .obj fs => by simpa [beqValue] using beqVObj_rfl fs

theorem beqVList_rfl : (xs : List Value) → beqVList xs xs = true
  | [] => rfl
  | x :: xs => by simp [beqVList, beqValue_rfl x, beqVList_rfl xs]

theorem beqVObj_rfl : (fs : List (String × Value)) → beqVObj fs fs = true
  | [] => rfl
  | (k, v) :: fs => by simp [beqVObj, beqValue_rfl v, beqVObj_rfl fs]

end

instance : BEq Value := ⟨beqValue⟩

instance : LawfulBEq Value where
  eq_of_beq h := beqValue_sound _ _ h
  rfl := beqValue_rfl _

instance : DecidableEq Value := fun a b =>
  if h : beqValue a b = true then isTrue (beqValue_sound a b h)
  else isFalse (fun e => h (e ▸ beqValue_rfl a))

namespace PyModel

/-- `d.get(k)`: the first value bound to key `k`, or Python `None` when the
key is absent. -/
def dGet (d : Doc) (k : String) : Value :=
  match d with
  | [] => .null
  | (k', v) :: rest => if k' == k then v else dGet rest k

/-- `k in d` for a dict `d`. -/
def hasKey (d : Doc) (k : String) : Bool :=
  d.any (fun p => p.1 == k)

/-- `d[k] = v` on a dict: replaces the value in place when the key exists,
otherwise appends the new binding at the end (Python dict order). -/
def dSet (d : Doc) (k : String) (v : Value) : Doc :=
  match d with
  | [] => [(k, v)]
  | (k', v') :: rest => if k' == k then (k, v) :: rest else (k', v') :: dSet rest k v

/-- `v[k]` subscription with a string key: succeeds only on a dict that has
the key (a missing key raises KeyError, a non-dict raises TypeError). -/
def getItem (v : Value) (k : String) : Option Value :=
  match v with
  | .obj fs => if hasKey fs k then some (dGet fs k) else none
  | _ => none

/-- Lexicographic comparison of strings by code point, Python's `<` on
`str` (and the comparison behind its `sorted`). -/
def strLt (a b : String) : Bool :=
  strLtChars a.toList b.toList
where
  strLtChars : List Char → List Char → Bool
    | [], [] => false
    | [], _ :: _ => true
    | _ :: _, [] => false
    | c :: cs, d :: ds =>
        if c.toNat < d.toNat then true
        else if d.toNat < c.toNat then false
        else strLtChars cs ds

/-- Substring test on character lists (`needle in haystack` for Python
strings; the empty needle is always contained). -/
def charsInfix (needle hay : List Char) : Bool :=
  charsPrefix needle hay ||
    match hay with
    | [] => false
    | _ :: rest => charsInfix needle rest
where
  charsPrefix : List Char → List Char → Bool
    | [], _ => true
    | _ :: _, [] => false
    | c :: cs, d :: ds => c == d && charsPrefix cs ds

/-- `x in v` (Python membership): element equality for a list, key lookup
for a dict, substring for a str container (TypeError unless `x` is also a
str); `None` and `int` are not containers, so membership raises. -/
def pyInValue (x : Value) (v : Value) : Option Bool :=
  match v with
  | .list xs => some (xs.contains x)
  | .obj fs => some (fs.any (fun p => Value.str p.1 == x))
  | .str s =>
      match x with
      | .str t => some (charsInfix t.toList s.toList)
      | _ => none
  | _ => none

/-- `needle in v` for a string needle. -/
def pyContains (needle : String) (v : Value) : Option Bool :=
  pyInValue (.str needle) v

/-- `for x in v`: the iteration sequence of `v` (list elements, dict keys,
the characters of a str); `None` and `int` are not iterable. -/
def pyIter (v : Value) : Option (List Value) :=
  match v with
  | .list xs => some xs
  | .obj fs => some (fs.map (fun p => Value.str p.1))
  | .str s => some (s.toList.map (fun c => Value.str (String.mk [c])))
  | _ => none

/-- `a < b` on values, for the str/str and int/int comparisons this module
performs (its stored times and bounds are `"HH:MM"` strings); other mixes
raise TypeError in Python and are modelled as an exception. -/
def pyLt (a b : Value) : Option Bool :=
  match a, b with
  | .str x, .str y => some (strLt x y)
  | .int x, .int y => some (decide (x < y))
  | _, _ => none

/-- Python truthiness of a value, as used when `pipeline[0].get("$unwind")`
appears in a boolean position. -/
def truthy (v : Value) : Bool :=
  match v with
  | .null => false
  | .str s => !(s == "")
  | .int n => !(n == 0)
  | .list xs => !xs.isEmpty
  | .obj fs => !fs.isEmpty

/-- Monadic `any(...)` over a generator: short-circuits at the first true
element, propagating the first exception met before that. -/
def anyM (f : α → Option Bool) : List α → Option Bool
  | [] => some false
  | x :: xs => do
      let b ← f x
      if b then some true else anyM f xs

end PyModel

example : PyModel.pyContains "$in" (.obj [("$in", .list [])]) = some true := by decide
example : PyModel.pyContains "$in" (.str "xx$inyy") = some true := by decide
example : PyModel.pyContains "$in" (.int 3) = none := by decide
example : PyModel.pyLt (.str "07:00") (.str "09:00") = some true := by decide
example : PyModel.pyLt (.str "15:15") (.str "09:00") = some false := by decide

namespace MockCollection

open PyModel

/-- One filter condition of `MockCollection.find`, for field `k` bound to
filter value `v` against `doc`: the three recognized operator forms
(`schedule_details.days` with `$in`, `schedule_details.start_time` with
`$gte`, `schedule_details.end_time` with `$lte`), falling back to plain
equality `doc.get(k) == v` in every other case. -/
def matchCond (doc : Doc) (k : String) (v : Value) : Option Bool :=
  if k == "schedule_details.days" then do
    let hasIn ← pyContains "$in" v
    if hasIn then
      if !hasKey doc "schedule_details" then some false
      else
        match dGet doc "schedule_details" with
        | .obj sd =>
            let days := dGet sd "days"
            if days == Value.null then some false
            else do
              let cands ← getItem v "$in"
              let candList ← pyIter cands
              anyM (fun day => pyInValue day days) candList
        | _ => none
    else some (dGet doc k == v)
  else if k == "schedule_details.start_time" then do
    let hasGte ← pyContains "$gte" v
    if hasGte then
      if !hasKey doc "schedule_details" then some false
      else
        match dGet doc "schedule_details" with
        | .obj sd =>
            let st := dGet sd "start_time"
            if st == Value.null then some false
            else do
              let bound ← getItem v "$gte"
              let lt ← pyLt st bound
              some (!lt)
        | _ => none
    else some (dGet doc k == v)
  else if k == "schedule_details.end_time" then do
    let hasLte ← pyContains "$lte" v
    if hasLte then
      if !hasKey doc "schedule_details" then some false
      else
        match dGet doc "schedule_details" with
        | .obj sd =>
            let et := dGet sd "end_time"
            if et == Value.null then some false
            else do
              let bound ← getItem v "$lte"
              let gt ← pyLt bound et
              some (!gt)
        | _ => none
    else some (dGet doc k == v)
  else some (dGet doc k == v)

/-- The `matches` loop of `MockCollection.find`: conjunction over all filter
pairs, breaking at the first failed condition (so a later condition that
would raise is never evaluated). -/
def matchesQuery (doc : Doc) : Doc → Option Bool
  | [] => some true
  | (k, v) :: rest => do
      let c ← matchCond doc k v
      if c then matchesQuery doc rest else some false

/-- `MockCollection.find(query)`: all documents matching the filter, in the
backing map's insertion order (a `{}` filter is the empty list). -/
def find (query : Doc) : Store → Option (List Doc)
  | [] => some []
  | (_, doc) :: rest => do
      let m ← matchesQuery doc query
      let others ← find query rest
      some (if m then doc :: others else others)

/-- The inner exact-match loop of `MockCollection.find_one`: every filter
pair `(k, v)` must satisfy `doc.get(k) == v`. -/
def exactMatch (doc : Doc) : Doc → Bool
  | [] => true
  | (k, v) :: rest => dGet doc k == v && exactMatch doc rest

/-- `MockCollection.find_one(query)`: walks the store in order; for each
document it first returns it if the filter carries `_id` and the document's
`_id` equals the filter's, then falls back to the exact all-pairs match.
`none` is Python's `None` (this operation cannot raise). -/
def find_one (query : Doc) : Store → Option Doc
  | [] => none
  | (_, doc) :: rest =>
      if hasKey query "_id" && (dGet doc "_id" == dGet query "_id") then some doc
      else if exactMatch doc query then some doc
      else find_one query rest

/-- `MockCollection.count_documents(query)`: `len(self.find(query))`. -/
def count_documents (query : Doc) (store : Store) : Option Nat :=
  (find query store).map List.length

/-- `MockCollection.insert_one(doc)`: `self.data[doc.get("_id")] = doc` —
dict assignment replaces in place when the key exists (keeping its
position) and appends otherwise. -/
def insert_one (doc : Doc) : Store → Store
  | [] => [(dGet doc "_id", doc)]
  | (k, d) :: rest =>
      if k == dGet doc "_id" then (dGet doc "_id", doc) :: rest
      else (k, d) :: insert_one doc rest

/-- The `$push` loop of `update_one`: for each `(k, v)` of the push spec,
create `doc[k]` as `[]` when absent, then `doc[k].append(v)` (appending to a
non-list raises AttributeError). -/
def applyPush (doc : Doc) : List (String × Value) → Option Doc
  | [] => some doc
  | (k, v) :: rest => do
      let doc2 ←
        if !hasKey doc k then some (dSet doc k (.list [v]))
        else
          match dGet doc k with
          | .list xs => some (dSet doc k (.list (xs ++ [v])))
          | _ => none
      applyPush doc2 rest

/-- The `$pull` loop of `update_one`: for each `(k, v)` of the pull spec,
when `doc[k]` exists and is a list, remove every element equal to `v`
(keeping the order of the rest); otherwise leave the document alone. -/
def applyPull (doc : Doc) : List (String × Value) → Doc
  | [] => doc
  | (k, v) :: rest =>
      let doc2 :=
        if hasKey doc k then
          match dGet doc k with
          | .list xs => dSet doc k (.list (xs.filter (fun x => !(x == v))))
          | _ => doc
        else doc
      applyPull doc2 rest

/-- `MockCollection.update_one(query, update)`: walks the store in order for
the first document with `doc.get("_id") == query.get("_id")`; applies
`$push` if present, else `$pull` if present, else nothing, and returns
modified count 1; returns 0 when no document's identifier matches.  The
result pairs the modified count with the store after the (in-place)
mutation. -/
def update_one (query upd : Doc) : Store → Option (Nat × Store)
  | [] => some (0, [])
  | (key, doc) :: rest =>
      if dGet doc "_id" == dGet query "_id" then
        if hasKey upd "$push" then
          match dGet upd "$push" with
          | .obj spec => do
              let doc2 ← applyPush doc spec
              some (1, (key, doc2) :: rest)
          | _ => none
        else if hasKey upd "$pull" then
          match dGet upd "$pull" with
          | .obj spec => some (1, (key, applyPull doc spec) :: rest)
          | _ => none
        else some (1, (key, doc) :: rest)
      else do
        let r ← update_one query upd rest
        some (r.1, (key, doc) :: r.2)

/-- The day-collecting loop of `MockCollection.aggregate`: for every
document having `schedule_details` with a `"days"` member, the iteration
sequence of `doc["schedule_details"]["days"]`, concatenated in store
order (the Python code adds them to a set; deduplication happens below). -/
def collectDays : List Doc → Option (List Value)
  | [] => some []
  | doc :: rest =>
      if hasKey doc "schedule_details" then do
        let sd := dGet doc "schedule_details"
        let c ← pyContains "days" sd
        if c then do
          let daysVal ← getItem sd "days"
          let ds ← pyIter daysVal
          let more ← collectDays rest
          some (ds ++ more)
        else collectDays rest
      else collectDays rest

/-- First-occurrence deduplication (the set semantics of `days = set()`;
the order kept here is irrelevant once sorted). -/
def dedupKeepFirst (seen : List Value) : List Value → List Value
  | [] => []
  | x :: xs =>
      if seen.contains x then dedupKeepFirst seen xs
      else x :: dedupKeepFirst (x :: seen) xs

/-- Ascending insertion sort by a boolean `le`. -/
def insertAscBy (le : α → α → Bool) (x : α) : List α → List α
  | [] => [x]
  | y :: ys => if le x y then x :: y :: ys else y :: insertAscBy le x ys

/-- Ascending sort by a boolean `le` (insertion sort). -/
def sortAscBy (le : α → α → Bool) (l : List α) : List α :=
  l.foldr (insertAscBy le) []

/-- Python `sorted` over the collected values: sorts a homogeneous list of
strings (by code point) or of ints; a mixed list raises TypeError, which is
what Python's `sorted` does on the shapes this module can collect. -/
def sortedPy (l : List Value) : Option (List Value) :=
  if l.all (fun v => match v with | .str _ => true | _ => false) then
    some ((sortAscBy (fun a b => !(PyModel.strLt b a))
      (l.filterMap (fun v => match v with | .str s => some s | _ => none))).map .str)
  else if l.all (fun v => match v with | .int _ => true | _ => false) then
    some ((sortAscBy (fun a b : Int => decide (a ≤ b))
      (l.filterMap (fun v => match v with | .int n => some n | _ => none))).map .int)
  else none

/-- `MockCollection.aggregate(pipeline)`: when the pipeline has at least two
stages whose first stage has a truthy `"$unwind"` member and whose second
has a truthy `"$group"` member, collect the distinct `schedule_details.days`
values of all documents and return them sorted ascending, each wrapped as a
one-field `{"_id": day}` document; every other pipeline yields `[]`. -/
def aggregate (pipeline : List Doc) (store : Store) : Option (List Doc) :=
  match pipeline with
  | p0 :: p1 :: _ =>
      if truthy (dGet p0 "$unwind") && truthy (dGet p1 "$group") then do
        let days ← collectDays (store.map (fun p => p.2))
        let distinctSorted ← sortedPy (dedupKeepFirst [] days)
        some (distinctSorted.map (fun d => [("_id", d)]))
      else some []
  | _ => some []

end MockCollection

open PyModel MockCollection

/-- One seed activity's details: `schedule_details` as a nested dict with
`days`, `start_time`, `end_time`. -/
def activityDetails (descr sched : String) (days : List String)
    (startT endT : String) (maxP : Int) (parts : List String) : Doc :=
  [("description", .str descr),
   ("schedule", .str sched),
   ("schedule_details", .obj
     [("days", .list (days.map .str)),
      ("start_time", .str startT),
      ("end_time", .str endT)]),
   ("max_participants", .int maxP),
   ("participants", .list (parts.map .str))]

/-- `_get_initial_activities()`: the fixed seed dict, name to details, in the
literal's insertion order. -/
def _get_initial_activities : List (String × Doc) :=
  [("Chess Club", activityDetails
      "Learn strategies and compete in chess tournaments"
      "Mondays and Fridays, 3:15 PM - 4:45 PM"
      ["Monday", "Friday"] "15:15" "16:45" 12
      ["michael@mergington.edu", "daniel@mergington.edu"]),
   ("Programming Class", activityDetails
      "Learn programming fundamentals and build software projects"
      "Tuesdays and Thursdays, 7:00 AM - 8:00 AM"
      ["Tuesday", "Thursday"] "07:00" "08:00" 20
      ["emma@mergington.edu", "sophia@mergington.edu"]),
   ("Morning Fitness", activityDetails
      "Early morning physical training and exercises"
      "Mondays, Wednesdays, Fridays, 6:30 AM - 7:45 AM"
      ["Monday", "Wednesday", "Friday"] "06:30" "07:45" 30
      ["john@mergington.edu", "olivia@mergington.edu"]),
   ("Soccer Team", activityDetails
      "Join the school soccer team and compete in matches"
      "Tuesdays and Thursdays, 3:30 PM - 5:30 PM"
      ["Tuesday", "Thursday"] "15:30" "17:30" 22
      ["liam@mergington.edu", "noah@mergington.edu"]),
   ("Basketball Team", activityDetails
      "Practice and compete in basketball tournaments"
      "Wednesdays and Fridays, 3:15 PM - 5:00 PM"
      ["Wednesday", "Friday"] "15:15" "17:00" 15
      ["ava@mergington.edu", "mia@mergington.edu"]),
   ("Art Club", activityDetails
      "Explore various art techniques and create masterpieces"
      "Thursdays, 3:15 PM - 5:00 PM"
      ["Thursday"] "15:15" "17:00" 15
      ["amelia@mergington.edu", "harper@mergington.edu"]),
   ("Drama Club", activityDetails
      "Act, direct, and produce plays and performances"
      "Mondays and Wednesdays, 3:30 PM - 5:30 PM"
      ["Monday", "Wednesday"] "15:30" "17:30" 20
      ["ella@mergington.edu", "scarlett@mergington.edu"]),
   ("Math Club", activityDetails
      "Solve challenging problems and prepare for math competitions"
      "Tuesdays, 7:15 AM - 8:00 AM"
      ["Tuesday"] "07:15" "08:00" 10
      ["james@mergington.edu", "benjamin@mergington.edu"]),
   ("Debate Team", activityDetails
      "Develop public speaking and argumentation skills"
      "Fridays, 3:30 PM - 5:30 PM"
      ["Friday"] "15:30" "17:30" 12
      ["charlotte@mergington.edu", "amelia@mergington.edu"]),
   ("Weekend Robotics Workshop", activityDetails
      "Build and program robots in our state-of-the-art workshop"
      "Saturdays, 10:00 AM - 2:00 PM"
      ["Saturday"] "10:00" "14:00" 15
      ["ethan@mergington.edu", "oliver@mergington.edu"]),
   ("Science Olympiad", activityDetails
      "Weekend science competition preparation for regional and state events"
      "Saturdays, 1:00 PM - 4:00 PM"
      ["Saturday"] "13:00" "16:00" 18
      ["isabella@mergington.edu", "lucas@mergington.edu"]),
   ("Sunday Chess Tournament", activityDetails
      "Weekly tournament for serious chess players with rankings"
      "Sundays, 2:00 PM - 5:00 PM"
      ["Sunday"] "14:00" "17:00" 16
      ["william@mergington.edu", "jacob@mergington.edu"])]

/-- `_get_initial_teachers()`: the fixed teacher seed.  `hash_password` uses
Argon2 with a fresh salt per call, so its output is not a function of the
plaintext alone; the embedding abstracts it as the parameter `h`. -/
def _get_initial_teachers (h : String → String) : List Doc :=
  [[("username", .str "mrodriguez"),
    ("display_name", .str "Ms. Rodriguez"),
    ("password", .str (h "art123")),
    ("role", .str "teacher")],
   [("username", .str "mchen"),
    ("display_name", .str "Mr. Chen"),
    ("password", .str (h "chess456")),
    ("role", .str "teacher")],
   [("username", .str "principal"),
    ("display_name", .str "Principal Martinez"),
    ("password", .str (h "admin789")),
    ("role", .str "admin")]]

/-- The activities seeding loop of `init_database`: insert
`{"_id": name, **details}` for each seed activity, in order. -/
def seedActivities (store : Store) : Store :=
  _get_initial_activities.foldl
    (fun st p => insert_one (("_id", .str p.1) :: p.2) st) store

/-- The teachers seeding loop of `init_database`: insert
`{"_id": teacher["username"], **teacher}` for each seed teacher, in order. -/
def seedTeachers (h : String → String) (store : Store) : Store :=
  (_get_initial_teachers h).foldl
    (fun st t => insert_one (("_id", dGet t "username") :: t) st) store

/-- `init_database()` on the in-memory backend: seed each collection exactly
when its `count_documents({})` is zero.  The state is the pair
(activities store, teachers store); `h` abstracts `hash_password`. -/
def init_database (h : String → String) (s : Store × Store) : Store × Store :=
  (if count_documents [] s.1 = some 0 then seedActivities s.1 else s.1,
   if count_documents [] s.2 = some 0 then seedTeachers h s.2 else s.2)

/-- The activities store right after seeding an empty collection. -/
def seededActivities : Store := seedActivities []

example : seededActivities.length = 12 := by decide

/-- Spec-side predicate for the membership query: the document's
`schedule_details.days` list has at least one element among `cands`. -/
def daysOverlap (cands : List String) (doc : Doc) : Bool :=
  match dGet doc "schedule_details" with
  | .obj sd =>
      match dGet sd "days" with
      | .list ds => ds.any (fun d => cands.any (fun c => d == .str c))
      | _ => false
  | _ => false

/-- The `_id` fields of a list of result documents. -/
def resultIds (r : List Doc) : List Value :=
  r.map (fun d => dGet d "_id")

/-- `find` with the empty filter `{}` matches every document: it returns the
whole store's documents in order and cannot raise. -/
theorem find_nil_query (store : Store) :
    find [] store = some (store.map (fun p => p.2)) := by
  induction store with
  | nil => rfl
  | cons p rest ih => simp [find, matchesQuery, ih]

/-- `count_documents({})` is the number of documents in the store. -/
theorem count_documents_nil_query (store : Store) :
    count_documents [] store = some store.length := by
  simp [count_documents, find_nil_query]

/-- If a document passes the exact all-pairs match of a filter that carries
`_id`, then in particular its `_id` equals the filter's. -/
theorem exactMatch_id (doc : Doc) :
    ∀ q : Doc, hasKey q "_id" = true → exactMatch doc q = true →
      (dGet doc "_id" == dGet q "_id") = true
  | [], hk, _ => by simp [hasKey] at hk
  | (k, v) :: rest, hk, hm => by
      simp only [exactMatch, Bool.and_eq_true] at hm
      by_cases hkid : k = "_id"
      · subst hkid
        simpa [dGet] using hm.1
      · have hk' : hasKey rest "_id" = true := by
          simpa [hasKey, hkid] using hk
        have : dGet ((k, v) :: rest) "_id" = dGet rest "_id" := by
          simp [dGet, hkid]
        rw [this]
        exact exactMatch_id doc rest hk' hm.2

/-- Python dict key lookup `self.data[k]` as a partial lookup: the document
stored under identifier `k`, if any. -/
def storeGet (k : Value) : Store → Option Doc
  | [] => none
  | (k', d) :: rest => if k' == k then some d else storeGet k rest

/-- Claim C9: when the filter carries `_id`, `find_one` is an
identifier-based lookup: it returns the first document (in store order)
whose `_id` equals the filter's `_id` value — even if other filter pairs do
not match that document — and `None` when no document has that identifier. -/
theorem find_one_id_lookup (store : Store) (q : Doc) (hq : hasKey q "_id" = true) :
    find_one q store
      = (store.map (fun p => p.2)).find? (fun d => dGet d "_id" == dGet q "_id") := by
  induction store with
  | nil => rfl
  | cons p rest ih =>
      obtain ⟨key, doc⟩ := p
      by_cases hid : (dGet doc "_id" == dGet q "_id") = true
      · simp [find_one, hq, hid]
      · have hex : exactMatch doc q = false := by
          cases hem : exactMatch doc q
          · rfl
          · exact absurd (exactMatch_id doc q hq hem) hid
        simp [find_one, hq, hid, hex, ih]

/-- Witness for C9: a one-document store whose document has `_id` `"A"` and
`level` 1; the filter asks for `_id` `"A"` but `level` 2, and `find_one`
still returns the document (identifier lookup wins over the mismatching
pair). -/
theorem find_one_id_lookup_witness :
    hasKey [("_id", Value.str "A"), ("level", Value.int 2)] "_id" = true ∧
    find_one [("_id", Value.str "A"), ("level", Value.int 2)]
        [(Value.str "A", [("_id", Value.str "A"), ("level", Value.int 1)])]
      = some [("_id", Value.str "A"), ("level", Value.int 1)] := by
  refine ⟨by decide, ?_⟩
  rw [find_one_id_lookup _ _ (by decide)]
  decide

/-- Claim C4: `update_one` with a filter whose identifier no stored document
carries returns modified count 0 and leaves the store exactly as it was. -/
theorem update_one_missing_id (store : Store) (q u : Doc)
    (_hq : hasKey q "_id" = true)
    (habs : ∀ p ∈ store, (dGet p.2 "_id" == dGet q "_id") = false) :
    update_one q u store = some (0, store) := by
  induction store with
  | nil => rfl
  | cons p rest ih =>
      obtain ⟨key, doc⟩ := p
      have h1 : (dGet doc "_id" == dGet q "_id") = false :=
        habs (key, doc) (List.mem_cons_self _ _)
      have ih' := ih (fun p hp => habs p (List.mem_cons_of_mem _ hp))
      simp [update_one, h1, ih']

/-- Witness for C4: pushing onto identifier `"B"` in a store that only holds
identifier `"A"` modifies nothing. -/
theorem update_one_missing_id_witness :
    update_one [("_id", Value.str "B")] [("$push", Value.obj [("participants", Value.str "p")])]
        [(Value.str "A", [("_id", Value.str "A")])]
      = some (0, [(Value.str "A", [("_id", Value.str "A")])]) :=
  update_one_missing_id _ _ _ (by decide) (by decide)

/-- Claim C10: when some stored document's identifier matches the filter's
but the update document carries neither `$push` nor `$pull`, `update_one`
reports modified count 1 while changing nothing. -/
theorem update_one_match_no_push_pull (store : Store) (q u : Doc)
    (hpush : hasKey u "$push" = false) (hpull : hasKey u "$pull" = false)
    (hmatch : ∃ p ∈ store, (dGet p.2 "_id" == dGet q "_id") = true) :
    update_one q u store = some (1, store) := by
  induction store with
  | nil => simp at hmatch
  | cons p rest ih =>
      obtain ⟨key, doc⟩ := p
      by_cases h1 : (dGet doc "_id" == dGet q "_id") = true
      · simp [update_one, h1, hpush, hpull]
      · have hrest : ∃ p ∈ rest, (dGet p.2 "_id" == dGet q "_id") = true := by
          obtain ⟨p', hp', hbeq⟩ := hmatch
          rcases List.mem_cons.mp hp' with rfl | hmem
          · exact absurd hbeq h1
          · exact ⟨p', hmem, hbeq⟩
        simp [update_one, h1, ih hrest]

/-- Witness for C10: an update with only a `$set`-style key matches the one
document and returns count 1 without touching the store. -/
theorem update_one_match_no_push_pull_witness :
    update_one [("_id", Value.str "A")] [("$set", Value.obj [("description", Value.str "d")])]
        [(Value.str "A", [("_id", Value.str "A"), ("description", Value.str "old")])]
      = some (1, [(Value.str "A", [("_id", Value.str "A"), ("description", Value.str "old")])]) :=
  update_one_match_no_push_pull _ _ _ (by decide) (by decide)
    ⟨(Value.str "A", [("_id", Value.str "A"), ("description", Value.str "old")]),
      by decide, by decide⟩

/-- Claim C7: `insert_one` stores the document under its identifier:
afterwards a lookup at that identifier yields the new document (silently
replacing any previous one — dict assignment raises no uniqueness error) and
a lookup at any other identifier is exactly what it was before. -/
theorem insert_one_upsert (store : Store) (doc : Doc) (k : Value) :
    storeGet k (insert_one doc store)
      = if k = dGet doc "_id" then some doc else storeGet k store := by
  induction store with
  | nil =>
      by_cases h : k = dGet doc "_id"
      · subst h; simp [insert_one, storeGet]
      · simp [insert_one, storeGet, h, Ne.symm h]
  | cons p rest ih =>
      obtain ⟨k', d⟩ := p
      by_cases h1 : k' = dGet doc "_id"
      · by_cases h2 : k = dGet doc "_id"
        · simp [insert_one, storeGet, h1, h2]
        · simp [insert_one, storeGet, h1, h2, Ne.symm h2]
      · by_cases h2 : k' = k
        · have hne : ¬ k = dGet doc "_id" := fun e => h1 (h2.trans e)
          simp [insert_one, storeGet, h1, h2, hne]
        · simp [insert_one, storeGet, h1, h2, ih]

/-- Seeding three teacher accounts into an empty collection yields three
documents, whatever `hash_password` returns. -/
theorem seedTeachers_nil_length (h : String → String) :
    (seedTeachers h []).length = 3 := rfl

/-- Seeding the twelve activities into an empty collection yields twelve
documents. -/
theorem seedActivities_nil_length : (seedActivities []).length = 12 := by decide

/-- Claim C8: `init_database` is idempotent — a second call (even with a
different hashing outcome) changes neither store, so both collections keep
the document counts of the first call; seeding runs only when
`count_documents({})` is zero. -/
theorem init_database_idempotent (h1 h2 : String → String) (s : Store × Store) :
    init_database h2 (init_database h1 s) = init_database h1 s ∧
    count_documents [] (init_database h2 (init_database h1 s)).1
      = count_documents [] (init_database h1 s).1 ∧
    count_documents [] (init_database h2 (init_database h1 s)).2
      = count_documents [] (init_database h1 s).2 := by
  obtain ⟨a, t⟩ := s
  have key : init_database h2 (init_database h1 (a, t)) = init_database h1 (a, t) := by
    unfold init_database
    simp only [count_documents_nil_query, Option.some.injEq]
    by_cases ha : a.length = 0
    · have ha' : a = [] := List.length_eq_zero.mp ha
      subst ha'
      by_cases ht : t.length = 0
      · have ht' : t = [] := List.length_eq_zero.mp ht
        subst ht'
        simp [seedActivities_nil_length, seedTeachers_nil_length]
      · simp [ha, ht, seedActivities_nil_length]
    · by_cases ht : t.length = 0
      · have ht' : t = [] := List.length_eq_zero.mp ht
        subst ht'
        simp [ha, seedTeachers_nil_length]
      · simp [ha, ht]
  exact ⟨key, by rw [key], by rw [key]⟩

/-- The structural test `MockCollection.aggregate` actually performs: at
least two stages, a truthy `"$unwind"` member in the first and a truthy
`"$group"` member in the second.  Nothing else about the stages is
inspected. -/
def recognizedShape (pipeline : List Doc) : Bool :=
  match pipeline with
  | p0 :: p1 :: _ => truthy (dGet p0 "$unwind") && truthy (dGet p1 "$group")
  | _ => false

/-- The fixed distinct-days computation `aggregate` runs when the structural
test passes (independent of the stages' contents). -/
def daysAggregation (store : Store) : Option (List Doc) := do
  let days ← collectDays (store.map (fun p => p.2))
  let distinctSorted ← sortedPy (dedupKeepFirst [] days)
  some (distinctSorted.map (fun d => [("_id", d)]))

/-- Claim C1 (amended): `aggregate` returns the empty sequence exactly for
pipelines failing the structural test (two or more stages, truthy
`"$unwind"` in the first, truthy `"$group"` in the second); every pipeline
passing the test triggers the distinct-days computation regardless of which
fields its stages name. -/
theorem aggregate_shape_dispatch (pipeline : List Doc) (store : Store) :
    aggregate pipeline store
      = if recognizedShape pipeline then daysAggregation store else some [] := by
  match pipeline with
  | [] => rfl
  | [p0] => rfl
  | p0 :: p1 :: rest =>
      by_cases hc : (truthy (dGet p0 "$unwind") && truthy (dGet p1 "$group")) = true
      · simp [aggregate, recognizedShape, daysAggregation, hc]
      · simp [aggregate, recognizedShape, daysAggregation, hc]

/-- Counterexample to claim C1 as stated: a pipeline that unwinds
`$participants` — not the weekday-array field, so not the "one recognized
shape" — still produces the (non-empty) distinct-days result over the
seeded store, because `aggregate` never looks at which field a stage
names. -/
theorem aggregate_unwind_participants_nonempty :
    aggregate [[("$unwind", Value.str "$participants")],
               [("$group", Value.obj [("_id", Value.str "$participants")])]]
        seededActivities
      = some [[("_id", Value.str "Friday")], [("_id", Value.str "Monday")],
              [("_id", Value.str "Saturday")], [("_id", Value.str "Sunday")],
              [("_id", Value.str "Thursday")], [("_id", Value.str "Tuesday")],
              [("_id", Value.str "Wednesday")]] ∧
    aggregate [[("$unwind", Value.str "$participants")],
               [("$group", Value.obj [("_id", Value.str "$participants")])]]
        seededActivities
      ≠ some [] := by
  refine ⟨by decide, ?_⟩
  decide

/-- The membership filter of the spec's membership-query property:
`{"schedule_details.days": {"$in": ["Monday", "Friday"]}}`. -/
def mondayFridayQuery : Doc :=
  [("schedule_details.days", .obj [("$in", .list [.str "Monday", .str "Friday"])])]

/-- Claim C2: over the seeded store, the Monday/Friday membership query
returns exactly the documents whose `days` list overlaps
`{"Monday", "Friday"}` — Chess Club, Morning Fitness, Basketball Team,
Drama Club and Debate Team, in store order, and no others. -/
theorem find_days_membership_seeded :
    find mondayFridayQuery seededActivities
      = some ((seededActivities.map (fun p => p.2)).filter (daysOverlap ["Monday", "Friday"])) ∧
    (find mondayFridayQuery seededActivities).map resultIds
      = some [.str "Chess Club", .str "Morning Fitness", .str "Basketball Team",
              .str "Drama Club", .str "Debate Team"] := by
  exact ⟨by decide, by decide⟩

/-- The time-range filter of the spec's time-range property:
`{"schedule_details.start_time": {"$gte": "09:00"},
  "schedule_details.end_time": {"$lte": "18:00"}}`. -/
def timeRangeQuery : Doc :=
  [("schedule_details.start_time", .obj [("$gte", .str "09:00")]),
   ("schedule_details.end_time", .obj [("$lte", .str "18:00")])]

/-- Spec-side predicate for the time-range query: both bounds decided by
direct lexicographic comparison of the stored `"HH:MM"` strings against the
bound strings (no parsing into numeric time). -/
def timeRangeLex (startBound endBound : String) (doc : Doc) : Bool :=
  match dGet doc "schedule_details" with
  | .obj sd =>
      match dGet sd "start_time", dGet sd "end_time" with
      | .str st, .str et => !(strLt st startBound) && !(strLt endBound et)
      | _, _ => false
  | _ => false

/-- Claim C3: over the seeded store, the 09:00–18:00 time-range query is
decided by lexicographic string comparison of the stored times against the
bounds; it includes "Chess Club" (15:15–16:45) and excludes
"Programming Class" (starts 07:00). -/
theorem find_time_range_seeded :
    find timeRangeQuery seededActivities
      = some ((seededActivities.map (fun p => p.2)).filter (timeRangeLex "09:00" "18:00")) ∧
    (find timeRangeQuery seededActivities).map resultIds
      = some [.str "Chess Club", .str "Soccer Team", .str "Basketball Team", .str "Art Club",
              .str "Drama Club", .str "Debate Team", .str "Weekend Robotics Workshop",
              .str "Science Olympiad", .str "Sunday Chess Tournament"] ∧
    ((find timeRangeQuery seededActivities).map resultIds).map
        (fun ids => decide (Value.str "Chess Club" ∈ ids) && !(decide (Value.str "Programming Class" ∈ ids)))
      = some true := by
  exact ⟨by decide, by decide, by decide⟩

/-- Claim C5: pushing `"x@y.edu"` onto Chess Club's participants really
appends it after the two seeded addresses, and pulling the same value
restores the seeded store exactly (order of the remaining elements
preserved). -/
theorem push_pull_round_trip_chess :
    ((update_one [("_id", Value.str "Chess Club")]
          [("$push", Value.obj [("participants", Value.str "x@y.edu")])]
          seededActivities).bind
        (fun r => storeGet (Value.str "Chess Club") r.2)).map
        (fun d => dGet d "participants")
      = some (.list [.str "michael@mergington.edu", .str "daniel@mergington.edu",
                     .str "x@y.edu"]) ∧
    (do
      let r1 ← update_one [("_id", Value.str "Chess Club")]
        [("$push", Value.obj [("participants", Value.str "x@y.edu")])] seededActivities
      let r2 ← update_one [("_id", Value.str "Chess Club")]
        [("$pull", Value.obj [("participants", Value.str "x@y.edu")])] r1.2
      some r2.2)
      = some seededActivities := by
  exact ⟨by decide, by decide⟩

/-- The distinct-days pipeline the application sends: unwind the weekday
array, then group on it. -/
def distinctDaysPipeline : List Doc :=
  [[("$unwind", .str "$schedule_details.days")],
   [("$group", .obj [("_id", .str "$schedule_details.days")])]]

/-- Strictly ascending (code-point order), hence duplicate-free. -/
def strictAscStr : List String → Bool
  | [] => true
  | [_] => true
  | a :: b :: rest => strLt a b && strictAscStr (b :: rest)

/-- Claim C6: aggregating the seeded store with the unwind+group pipeline
returns one `{"_id": day}` document per distinct weekday appearing in any
document's `schedule_details.days` — all seven weekday names here — each
exactly once, in strictly ascending alphabetical order, and the listed days
are exactly the ones occurring in the seed (both inclusions checked). -/
theorem aggregate_distinct_days_seeded :
    aggregate distinctDaysPipeline seededActivities
      = some ((["Friday", "Monday", "Saturday", "Sunday", "Thursday", "Tuesday",
                "Wednesday"].map (fun d => [("_id", Value.str d)]))) ∧
    strictAscStr ["Friday", "Monday", "Saturday", "Sunday", "Thursday", "Tuesday",
                  "Wednesday"] = true ∧
    ((collectDays (seededActivities.map (fun p => p.2))).map (fun occurring =>
        occurring.all (fun v => (["Friday", "Monday", "Saturday", "Sunday", "Thursday",
            "Tuesday", "Wednesday"].map Value.str).contains v) &&
        (["Friday", "Monday", "Saturday", "Sunday", "Thursday", "Tuesday",
            "Wednesday"].map Value.str).all (fun v => occurring.contains v)))
      = some true := by
  exact ⟨by decide, by decide, by decide⟩
